import Mathlib

/-!
# Verification of the i2c-display driver layer and rotation scheduler

Shallow embedding of the display drivers (`internal/display`) and the
rotation/refresh scheduler (`internal/rotation`) of the i2c-display Go
repository, together with proofs of the behavioural properties stated in
the specification.

Machine integers are modelled as `Nat`/`Int`, with an explicit `% 2^w`
wherever the Go code performs a narrowing conversion or the arithmetic
could wrap.  Fallible bus operations are modelled by an abstract bus
`Nat → Bool` saying whether the n-th transaction on the bus fails, and
every driver operation returns its result, the successor driver state and
the trace of bus writes it emitted.
-/

namespace I2CDisplay

/-! ## Colours and RGB565 packing (`st7735.go`, `nrgbaToRGB565`) -/

/-- `color.NRGBA`: four 8-bit channels.  Channels are stored as `Nat`;
every use site narrows with `% 256`, mirroring Go's `uint8` width. -/
structure NRGBA where
  r : Nat
  g : Nat
  b : Nat
  a : Nat
deriving DecidableEq, Repr

/-- `color.NRGBA{R: 0, G: 0, B: 0, A: 255}`: the background colour. -/
def blackNRGBA : NRGBA := ⟨0, 0, 0, 255⟩

/-- `color.NRGBA{R: 255, G: 255, B: 255, A: 255}`. -/
def whiteNRGBA : NRGBA := ⟨255, 255, 255, 255⟩

/-- `nrgbaToRGB565` from `st7735.go`:
`r := uint16(c.R) >> 3; g := uint16(c.G) >> 2; b := uint16(c.B) >> 3;`
`return (r << 11) | (g << 5) | b` — the result is a `uint16`, hence the
outer `% 65536`. -/
def nrgbaToRGB565 (c : NRGBA) : Nat :=
  let r := (c.r % 256) >>> 3
  let g := (c.g % 256) >>> 2
  let b := (c.b % 256) >>> 3
  (((r <<< 11) ||| (g <<< 5)) ||| b) % 65536

/-! ## Transfer chunking

`ST7735Display.sendData` (direct SPI, 4096-byte limit) and
`UCTRONICSDisplay.burstTransfer` (bridged I2C, 160-byte limit) both walk
the payload front to back, peeling off at most `maxLen` bytes per bus
transaction.  `chunkList` is that decomposition; `txChunked` is the loop
itself run against a fallible bus. -/

/-- `spiMaxTx` from `st7735.go`: sysfs SPI per-transaction limit. -/
def spiMaxTx : Nat := 4096

/-- `uctronicsBurstMaxLen` from the UCTRONICS driver: I2C burst chunk limit. -/
def uctronicsBurstMaxLen : Nat := 160

/-- The chunk decomposition performed by the transfer loops: repeatedly
take `maxLen` bytes.  Both transports use a positive `maxLen`; the
`maxLen = 0` branch exists only so the definition is total. -/
def chunkList (maxLen : Nat) (data : List Nat) : List (List Nat) :=
  if h : data = [] then []
  else if hm : maxLen = 0 then [data]
  else data.take maxLen :: chunkList maxLen (data.drop maxLen)
termination_by data.length
decreasing_by
  simp only [List.length_drop]
  have : 0 < data.length := List.length_pos.mpr h
  omega

/-- A bus is a predicate on transaction indices: `bus n = true` means the
n-th transaction on the bus fails (`Tx` returns an error). -/
abbrev Bus := Nat → Bool

/-- The bus on which every transaction succeeds. -/
def okBus : Bus := fun _ => false

/-- The chunked transfer loop (`sendData` / the `burstTransfer` payload
loop) against a fallible bus: peel off up to `maxLen` bytes, transmit
them, and continue with the rest; a failed transmission aborts the loop.
Returns the loop result (with the successor bus index on success) and the
list of successfully transmitted chunks, in order. -/
def txChunked (maxLen : Nat) (bus : Bus) (n : Nat) (data : List Nat) :
    Except Unit Nat × List (List Nat) :=
  if h : data = [] then (.ok n, [])
  else if hm : maxLen = 0 then
    -- dead branch: both call sites pass a positive constant
    (.ok n, [data])
  else
    let chunk := data.take maxLen
    if bus n then (.error (), [])
    else
      let rest := txChunked maxLen bus (n + 1) (data.drop maxLen)
      (rest.1, chunk :: rest.2)
termination_by data.length
decreasing_by
  simp only [List.length_drop]
  have : 0 < data.length := List.length_pos.mpr h
  omega

/-! ### Helper lemmas about the chunk decomposition -/

theorem chunkList_flatten (maxLen : Nat) (data : List Nat) :
    (chunkList maxLen data).flatten = data := by
  induction data using chunkList.induct maxLen with
  | case1 => simp [chunkList]
  | case2 x h hm => simp [chunkList, h, hm]
  | case3 x h hm ih =>
      rw [chunkList]
      simp only [h, hm, dite_false, dif_neg, List.flatten_cons, ih]
      exact List.take_append_drop maxLen x

theorem chunkList_ne_nil (maxLen : Nat) (hm : maxLen ≠ 0) (data : List Nat) :
    ∀ c ∈ chunkList maxLen data, c ≠ [] := by
  induction data using chunkList.induct maxLen with
  | case1 => simp [chunkList]
  | case2 x h hm0 => exact absurd hm0 hm
  | case3 x h hm0 ih =>
      rw [chunkList, dif_neg h, dif_neg hm0]
      intro c hc
      rcases List.mem_cons.mp hc with hc | hc
      · subst hc
        simp only [ne_eq, List.take_eq_nil_iff]
        push_neg
        exact ⟨hm0, h⟩
      · exact ih c hc

theorem chunkList_dropLast_length (maxLen : Nat) (hm : maxLen ≠ 0) (data : List Nat) :
    ∀ c ∈ (chunkList maxLen data).dropLast, c.length = maxLen := by
  induction data using chunkList.induct maxLen with
  | case1 => simp [chunkList]
  | case2 x h hm0 => exact absurd hm0 hm
  | case3 x h hm0 ih =>
      rw [chunkList, dif_neg h, dif_neg hm0]
      rcases hrec : chunkList maxLen (x.drop maxLen) with _ | ⟨c0, cs⟩
      · simp
      · have hne : x.drop maxLen ≠ [] := by
          intro hdrop
          rw [hdrop] at hrec
          simp [chunkList] at hrec
        have hlen : maxLen < x.length := by
          have := List.length_pos.mpr hne
          simp only [List.length_drop] at this
          omega
        intro c hc
        rw [List.dropLast_cons_of_ne_nil (by simp)] at hc
        rcases List.mem_cons.mp hc with hc | hc
        · subst hc
          simp only [List.length_take]
          omega
        · rw [hrec] at ih
          exact ih c hc

theorem chunkList_length_exact (maxLen : Nat) (hm : maxLen ≠ 0) (q : Nat) (data : List Nat)
    (hq : data.length = maxLen * q) : (chunkList maxLen data).length = q := by
  induction q generalizing data with
  | zero =>
      have : data = [] := List.length_eq_zero.mp (by omega)
      simp [this, chunkList]
  | succ k ih =>
      have hne : data ≠ [] := by
        intro hnil
        rw [hnil] at hq
        simp at hq
        omega
      rw [chunkList, dif_neg hne, dif_neg hm]
      rw [List.length_cons,
        ih (data.drop maxLen) (by simp only [List.length_drop, hq, Nat.mul_succ]; omega)]

theorem chunkList_length_plus_one (maxLen : Nat) (hm : maxLen ≠ 0) (q : Nat) (data : List Nat)
    (hq : data.length = maxLen * q + 1) :
    (chunkList maxLen data).length = q + 1 ∧
      ∃ c, (chunkList maxLen data).getLast? = some c ∧ c.length = 1 := by
  induction q generalizing data with
  | zero =>
      have hne : data ≠ [] := by
        intro hnil; rw [hnil] at hq; simp at hq
      rw [chunkList, dif_neg hne, dif_neg hm]
      have h1 : data.length = 1 := by omega
      have hdrop : data.drop maxLen = [] := by
        apply List.eq_nil_of_length_eq_zero
        simp only [List.length_drop]
        omega
      have htake : data.take maxLen = data := by
        apply List.take_of_length_le
        omega
      rw [hdrop, htake]
      simp [chunkList, h1]
  | succ k ih =>
      have hne : data ≠ [] := by
        intro hnil; rw [hnil] at hq; simp at hq
      rw [chunkList, dif_neg hne, dif_neg hm]
      have hrec := ih (data.drop maxLen)
        (by simp only [List.length_drop, hq, Nat.mul_succ]; omega)
      have hrecne : chunkList maxLen (data.drop maxLen) ≠ [] := by
        intro hnil
        rw [hnil] at hrec
        simp at hrec
      obtain ⟨hlen, c, hlast, hc1⟩ := hrec
      refine ⟨by simp [hlen], c, ?_, hc1⟩
      obtain ⟨c0, cs, hceq⟩ := List.exists_cons_of_ne_nil hrecne
      rw [hceq, List.getLast?_cons_cons, ← hceq]
      exact hlast

/-- The trace of the chunked transfer loop is always a prefix of the chunk
decomposition, and on success it is all of it: the loop never reorders,
skips or retries chunks, and a failure aborts the rest of the payload. -/
theorem txChunked_trace_prefix (maxLen : Nat) (hm : maxLen ≠ 0) (bus : Bus) (n : Nat)
    (data : List Nat) :
    ∃ k, k ≤ (chunkList maxLen data).length ∧
      (txChunked maxLen bus n data).2 = (chunkList maxLen data).take k ∧
      (∀ m, (txChunked maxLen bus n data).1 = .ok m →
        (txChunked maxLen bus n data).2 = chunkList maxLen data) := by
  induction n, data using txChunked.induct maxLen bus with
  | case1 n => exact ⟨0, by simp [txChunked, chunkList]⟩
  | case2 n x h hm0 => exact absurd hm0 hm
  | case3 n x h hm0 hbus =>
      refine ⟨0, by simp, ?_, ?_⟩
      · rw [txChunked, dif_neg h, dif_neg hm0, if_pos hbus]
        simp
      · intro m hok
        rw [txChunked, dif_neg h, dif_neg hm0, if_pos hbus] at hok
        simp at hok
  | case4 n x h hm0 hbus ih =>
      obtain ⟨k, hk, htr, hfull⟩ := ih
      rw [txChunked, dif_neg h, dif_neg hm0, if_neg hbus]
      rw [chunkList, dif_neg h, dif_neg hm0]
      refine ⟨k + 1, by simp only [List.length_cons]; omega, ?_, ?_⟩
      · simp only [List.take_succ_cons, htr]
      · intro m hok
        simp only at hok
        have hfl : (chunkList maxLen (x.drop maxLen)).take k =
            chunkList maxLen (x.drop maxLen) := by
          rw [← htr, hfull m hok]
        simp only [List.take_succ_cons, htr, hfl]

/-- On a bus without failures the chunked transfer succeeds and transmits
exactly the chunk decomposition of the payload. -/
theorem txChunked_okBus (maxLen : Nat) (hm : maxLen ≠ 0) (n : Nat) (data : List Nat) :
    txChunked maxLen okBus n data =
      (.ok (n + (chunkList maxLen data).length), chunkList maxLen data) := by
  induction n, data using txChunked.induct maxLen okBus with
  | case1 n => simp [txChunked, chunkList]
  | case2 n x h hm0 => exact absurd hm0 hm
  | case3 n x h hm0 hbus => simp [okBus] at hbus
  | case4 n x h hm0 hbus ih =>
      rw [txChunked, dif_neg h, dif_neg hm0, if_neg hbus]
      rw [chunkList, dif_neg h, dif_neg hm0]
      simp only [ih, List.length_cons, Prod.mk.injEq]
      exact ⟨by congr 1; omega, trivial⟩

/-- Bit-level decomposition used by the RGB565 packing: for channel values
in range, the three OR-ed shifted fields occupy disjoint bit ranges, so the
OR is a plain sum. -/
theorem rgb565_lor_decomp : ∀ r : Nat, r < 32 → ∀ g : Nat, g < 64 → ∀ b : Nat, b < 32 →
    ((r <<< 11) ||| (g <<< 5)) ||| b = r * 2048 + g * 32 + b := by decide

/-- **C2**: for both chunked transfer primitives — the direct-SPI data path
with a 4096-byte maximum (`spiMaxTx`) and the bridged I2C burst path with a
160-byte maximum (`uctronicsBurstMaxLen`) — every payload is split into
ordered, contiguous chunks whose concatenation equals the payload with no
reordering; every chunk except possibly the last has exactly the maximum
length; a payload whose length is an exact multiple of the maximum produces
exactly `length / maximum` chunks with no empty trailing chunk; a payload one
byte longer produces one additional chunk, of length 1; and the transfer loop
transmits exactly that decomposition, in order. -/
theorem chunked_transfer_spec (maxLen : Nat)
    (hmax : maxLen = spiMaxTx ∨ maxLen = uctronicsBurstMaxLen) (data : List Nat) :
    (chunkList maxLen data).flatten = data ∧
    (∀ c ∈ (chunkList maxLen data).dropLast, c.length = maxLen) ∧
    (∀ c ∈ chunkList maxLen data, c ≠ []) ∧
    (∀ q, data.length = maxLen * q → (chunkList maxLen data).length = q) ∧
    (∀ q, data.length = maxLen * q + 1 →
      (chunkList maxLen data).length = q + 1 ∧
        ∃ c, (chunkList maxLen data).getLast? = some c ∧ c.length = 1) ∧
    (∀ n, txChunked maxLen okBus n data =
      (.ok (n + (chunkList maxLen data).length), chunkList maxLen data)) := by
  have hm : maxLen ≠ 0 := by
    rcases hmax with h | h <;> rw [h] <;> simp [spiMaxTx, uctronicsBurstMaxLen]
  exact ⟨chunkList_flatten maxLen data,
    chunkList_dropLast_length maxLen hm data,
    chunkList_ne_nil maxLen hm data,
    fun q hq => chunkList_length_exact maxLen hm q data hq,
    fun q hq => chunkList_length_plus_one maxLen hm q data hq,
    fun n => txChunked_okBus maxLen hm n data⟩

/-- Witness for `chunked_transfer_spec` at the bridged-burst maximum and a
concrete three-byte payload. -/
theorem chunked_transfer_spec_witness :
    (chunkList uctronicsBurstMaxLen [1, 2, 3]).flatten = [1, 2, 3] ∧
    (∀ c ∈ (chunkList uctronicsBurstMaxLen [1, 2, 3]).dropLast,
      c.length = uctronicsBurstMaxLen) ∧
    (∀ c ∈ chunkList uctronicsBurstMaxLen [1, 2, 3], c ≠ []) ∧
    (∀ q, ([1, 2, 3] : List Nat).length = uctronicsBurstMaxLen * q →
      (chunkList uctronicsBurstMaxLen [1, 2, 3]).length = q) ∧
    (∀ q, ([1, 2, 3] : List Nat).length = uctronicsBurstMaxLen * q + 1 →
      (chunkList uctronicsBurstMaxLen [1, 2, 3]).length = q + 1 ∧
        ∃ c, (chunkList uctronicsBurstMaxLen [1, 2, 3]).getLast? = some c ∧
          c.length = 1) ∧
    (∀ n, txChunked uctronicsBurstMaxLen okBus n [1, 2, 3] =
      (.ok (n + (chunkList uctronicsBurstMaxLen [1, 2, 3]).length),
        chunkList uctronicsBurstMaxLen [1, 2, 3])) :=
  chunked_transfer_spec uctronicsBurstMaxLen (Or.inr rfl) [1, 2, 3]

/-- **C5**: the RGB565 packing is deterministic and is exactly the
truncating formula `((r >> 3) << 11) | ((g >> 2) << 5) | (b >> 3)` (the
`uint16` wrap in the code is redundant); equivalently a plain sum of the
truncated channels; it fits in 16 bits; white packs to `0xFFFF` and black
to `0x0000`. -/
theorem rgb565_packing_spec (c : NRGBA) :
    nrgbaToRGB565 c =
      ((((c.r % 256) >>> 3) <<< 11) ||| (((c.g % 256) >>> 2) <<< 5)) |||
        ((c.b % 256) >>> 3) ∧
    nrgbaToRGB565 c = (c.r % 256) / 8 * 2048 + (c.g % 256) / 4 * 32 + (c.b % 256) / 8 ∧
    nrgbaToRGB565 c < 65536 ∧
    nrgbaToRGB565 whiteNRGBA = 0xFFFF ∧
    nrgbaToRGB565 blackNRGBA = 0x0000 := by
  have hr : (c.r % 256) >>> 3 < 32 := by rw [Nat.shiftRight_eq_div_pow]; omega
  have hg : (c.g % 256) >>> 2 < 64 := by rw [Nat.shiftRight_eq_div_pow]; omega
  have hb : (c.b % 256) >>> 3 < 32 := by rw [Nat.shiftRight_eq_div_pow]; omega
  have key := rgb565_lor_decomp _ hr _ hg _ hb
  have hmod : nrgbaToRGB565 c =
      ((((c.r % 256) >>> 3) <<< 11) ||| (((c.g % 256) >>> 2) <<< 5)) |||
        ((c.b % 256) >>> 3) := by
    rw [nrgbaToRGB565]
    rw [key]
    rw [Nat.mod_eq_of_lt (by omega)]
  have hadd : nrgbaToRGB565 c =
      (c.r % 256) / 8 * 2048 + (c.g % 256) / 4 * 32 + (c.b % 256) / 8 := by
    rw [hmod, key]
    simp only [Nat.shiftRight_eq_div_pow]
  refine ⟨hmod, hadd, by rw [hadd]; omega, by decide, by decide⟩

/-! ## MADCTL flags and the per-variant rotation table (`st7735.go`) -/

/-- MADCTL row-address-order bit. -/
def madctlMY : Nat := 0x80

/-- MADCTL column-address-order bit. -/
def madctlMX : Nat := 0x40

/-- MADCTL row/column exchange bit. -/
def madctlMV : Nat := 0x20

/-- MADCTL line-address-order bit. -/
def madctlML : Nat := 0x10

/-- `ST7735Display.st7735RotationParams`: the MADCTL byte and the
`(colOffset, rowOffset)` RAM offsets for a panel variant and rotation.
The variant is selected on `(panelWidth, panelHeight)`; the rotation is a
Go `int` and every value other than 0, 1, 2 falls to the `default` arm. -/
def st7735RotationParams (panelWidth panelHeight : Nat) (rotation : Int) :
    Nat × Nat × Nat :=
  if panelWidth = 160 ∧ panelHeight = 80 then
    if rotation = 0 then (madctlMX ||| madctlMV ||| madctlML, 1, 26)
    else if rotation = 1 then (madctlMY ||| madctlMV ||| madctlML, 26, 1)
    else if rotation = 2 then (madctlMY ||| madctlMV, 1, 26)
    else (madctlMX ||| madctlMV, 26, 1)
  else if panelWidth = 128 ∧ panelHeight = 128 then
    if rotation = 0 then (madctlMX ||| madctlMY, 2, 3)
    else if rotation = 1 then (madctlMY ||| madctlMV, 3, 2)
    else if rotation = 2 then (0x00, 2, 1)
    else (madctlMX ||| madctlMV, 1, 2)
  else
    if rotation = 0 then (madctlMX ||| madctlMY, 0, 0)
    else if rotation = 1 then (madctlMY ||| madctlMV, 0, 0)
    else if rotation = 2 then (0x00, 0, 0)
    else (madctlMX ||| madctlMV, 0, 0)

/-! ## The direct-SPI ST7735 driver (`st7735.go`) -/

/-- A write on the SPI bus: a single command byte sent with DC low, or a
chunk of data bytes sent with DC high. -/
inductive SpiWrite where
  | cmd (b : Nat)
  | data (bytes : List Nat)
deriving DecidableEq, Repr

/-- ST7735 command bytes used by the address window. -/
def st7735CASET : Nat := 0x2A

/-- RASET command byte. -/
def st7735RASET : Nat := 0x2B

/-- RAMWR command byte. -/
def st7735RAMWR : Nat := 0x2C

/-- The driver state of `ST7735Display`: geometry, per-rotation RAM
offsets, and the NRGBA framebuffer stored row-major (Go's
`image.NRGBA`). The bus and GPIO handles are modelled by the `Bus`
argument of each operation. -/
structure ST7735State where
  width : Nat
  height : Nat
  panelWidth : Nat
  panelHeight : Nat
  colOffset : Nat
  rowOffset : Nat
  img : List NRGBA
deriving DecidableEq, Repr

/-- `image.NRGBA.SetNRGBA` on the rectangle `(0,0)-(width,height)`:
out-of-rectangle writes are silent no-ops. -/
def setNRGBA (width height : Nat) (img : List NRGBA) (x y : Int) (c : NRGBA) :
    List NRGBA :=
  if 0 ≤ x ∧ x < (width : Int) ∧ 0 ≤ y ∧ y < (height : Int) then
    img.set (y.toNat * width + x.toNat) c
  else img

/-- `sendCmd`: DC low, transmit one command byte; the transmission can
fail. -/
def sendCmd (bus : Bus) (n : Nat) (c : Nat) : Except Unit Nat × List SpiWrite :=
  if bus n then (.error (), []) else (.ok (n + 1), [.cmd c])

/-- `sendData`: DC high, transmit data bytes chunked to `spiMaxTx`. -/
def sendData (bus : Bus) (n : Nat) (data : List Nat) :
    Except Unit Nat × List SpiWrite :=
  let r := txChunked spiMaxTx bus n data
  (r.1, r.2.map SpiWrite.data)

/-- `sendCmdData`: a command byte followed by its data bytes, if any. -/
def sendCmdData (bus : Bus) (n : Nat) (c : Nat) (data : List Nat) :
    Except Unit Nat × List SpiWrite :=
  match sendCmd bus n c with
  | (.error e, tr) => (.error e, tr)
  | (.ok n1, tr) =>
    if data.length > 0 then
      let r := sendData bus n1 data
      (r.1, tr ++ r.2)
    else (.ok n1, tr)

/-- `setWindow`: CASET and RASET with the offset-translated coordinates
(8-bit arithmetic, hence the `% 256`s), then RAMWR. -/
def setWindowFn (bus : Bus) (n : Nat) (d : ST7735State) (x0 y0 x1 y1 : Int) :
    Except Unit Nat × List SpiWrite :=
  let cx0 := ((x0.emod 256).toNat + d.colOffset) % 256
  let cx1 := ((x1.emod 256).toNat + d.colOffset) % 256
  let ry0 := ((y0.emod 256).toNat + d.rowOffset) % 256
  let ry1 := ((y1.emod 256).toNat + d.rowOffset) % 256
  match sendCmdData bus n st7735CASET [0x00, cx0, 0x00, cx1] with
  | (.error e, tr1) => (.error e, tr1)
  | (.ok n1, tr1) =>
    match sendCmdData bus n1 st7735RASET [0x00, ry0, 0x00, ry1] with
    | (.error e, tr2) => (.error e, tr1 ++ tr2)
    | (.ok n2, tr2) =>
      let r := sendCmd bus n2 st7735RAMWR
      (r.1, tr1 ++ tr2 ++ r.2)

/-- The row-major RGB565 serialization both colour `Show`s perform: two
bytes per pixel, high byte first (`byte(rgb565 >> 8)`, `byte(rgb565)`). -/
def serializeImg (img : List NRGBA) : List Nat :=
  img.flatMap fun c => [(nrgbaToRGB565 c >>> 8) % 256, nrgbaToRGB565 c % 256]

/-- `ST7735Display.Clear`: fill the framebuffer with opaque black;
no bus write is emitted. -/
def st7735Clear (d : ST7735State) :
    (Except Unit Unit × ST7735State) × List SpiWrite :=
  ((.ok (), { d with img := d.img.map fun _ => blackNRGBA }), [])

/-- `ST7735Display.DrawPixel`: silently ignore out-of-bounds coordinates,
otherwise set the pixel white or black. -/
def st7735DrawPixel (d : ST7735State) (x y : Int) (isOn : Bool) :
    (Except Unit Unit × ST7735State) × List SpiWrite :=
  if x < 0 ∨ x ≥ (d.width : Int) ∨ y < 0 ∨ y ≥ (d.height : Int) then
    ((.ok (), d), [])
  else
    let c := if isOn then whiteNRGBA else blackNRGBA
    ((.ok (), { d with img := setNRGBA d.width d.height d.img x y c }), [])

/-- `ST7735Display.Show`: set the full-frame address window, serialize the
framebuffer to RGB565 and send it through the chunked data path.  The
driver state is returned unchanged — `Show` reads but never writes any
field. -/
def st7735Show (bus : Bus) (n : Nat) (d : ST7735State) :
    (Except Unit Unit × ST7735State) × List SpiWrite :=
  match setWindowFn bus n d 0 0 ((d.width : Int) - 1) ((d.height : Int) - 1) with
  | (.error e, tr) => ((.error e, d), tr)
  | (.ok n1, tr) =>
    let r := sendData bus n1 (serializeImg d.img)
    ((match r.1 with
      | .ok _ => .ok ()
      | .error e => .error e, d), tr ++ r.2)

/-! ## The bridged UCTRONICS driver (`uctronics.go`) -/

/-- A write on the I2C bus: the raw bytes of one transaction (a 3-byte
register command or a burst payload chunk). -/
abbrev I2CWrite := List Nat

/-- MCU register addresses and panel placement constants. -/
def uctronicsBurstWriteReg : Nat := 0x01

/-- Sync/flush register. -/
def uctronicsSyncReg : Nat := 0x03

/-- CASET register forwarded by the MCU. -/
def uctronicsXCoordReg : Nat := 0x2A

/-- RASET register forwarded by the MCU. -/
def uctronicsYCoordReg : Nat := 0x2B

/-- RAMWR register forwarded by the MCU. -/
def uctronicsCharDataReg : Nat := 0x2C

/-- Panel column origin in controller RAM. -/
def uctronicsXStart : Nat := 0

/-- Panel row origin in controller RAM. -/
def uctronicsYStart : Nat := 24

/-- The driver state of `UCTRONICSDisplay`: geometry and the row-major
NRGBA framebuffer. -/
structure UCTRONICSState where
  width : Nat
  height : Nat
  img : List NRGBA
deriving DecidableEq, Repr

/-- `writeCommand`: one 3-byte I2C transaction `[register, high, low]`. -/
def writeCommand (bus : Bus) (n : Nat) (reg high low : Nat) :
    Except Unit Nat × List I2CWrite :=
  if bus n then (.error (), []) else (.ok (n + 1), [[reg, high, low]])

/-- `setAddressWindow`: CASET/RASET with the fixed panel offsets (8-bit
addition, hence `% 256`), RAMWR, then a sync write. -/
def setAddressWindow (bus : Bus) (n : Nat) (x0 y0 x1 y1 : Nat) :
    Except Unit Nat × List I2CWrite :=
  match writeCommand bus n uctronicsXCoordReg ((x0 + uctronicsXStart) % 256)
      ((x1 + uctronicsXStart) % 256) with
  | (.error e, tr1) => (.error e, tr1)
  | (.ok n1, tr1) =>
    match writeCommand bus n1 uctronicsYCoordReg ((y0 + uctronicsYStart) % 256)
        ((y1 + uctronicsYStart) % 256) with
    | (.error e, tr2) => (.error e, tr1 ++ tr2)
    | (.ok n2, tr2) =>
      match writeCommand bus n2 uctronicsCharDataReg 0x00 0x00 with
      | (.error e, tr3) => (.error e, tr1 ++ tr2 ++ tr3)
      | (.ok n3, tr3) =>
        let r := writeCommand bus n3 uctronicsSyncReg 0x00 0x01
        (r.1, tr1 ++ tr2 ++ tr3 ++ r.2)

/-- `burstTransfer`: enable burst mode, send the payload in chunks of
`uctronicsBurstMaxLen`, disable burst mode, sync.  A failed chunk aborts
the transfer immediately, before the disable and sync writes. -/
def burstTransferFn (bus : Bus) (n : Nat) (data : List Nat) :
    Except Unit Nat × List I2CWrite :=
  match writeCommand bus n uctronicsBurstWriteReg 0x00 0x01 with
  | (.error e, tr1) => (.error e, tr1)
  | (.ok n1, tr1) =>
    let chunks := txChunked uctronicsBurstMaxLen bus n1 data
    match chunks.1 with
    | .error e => (.error e, tr1 ++ chunks.2)
    | .ok n2 =>
      match writeCommand bus n2 uctronicsBurstWriteReg 0x00 0x00 with
      | (.error e, tr3) => (.error e, tr1 ++ chunks.2 ++ tr3)
      | (.ok n3, tr3) =>
        let r := writeCommand bus n3 uctronicsSyncReg 0x00 0x01
        (r.1, tr1 ++ chunks.2 ++ tr3 ++ r.2)

/-- `UCTRONICSDisplay.Show`: full-frame window, RGB565 serialization,
burst transfer.  The state is returned unchanged. -/
def uctronicsShow (bus : Bus) (n : Nat) (d : UCTRONICSState) :
    (Except Unit Unit × UCTRONICSState) × List I2CWrite :=
  match setAddressWindow bus n 0 0 ((((d.width : Int) - 1).emod 256).toNat)
      ((((d.height : Int) - 1).emod 256).toNat) with
  | (.error e, tr) => ((.error e, d), tr)
  | (.ok n1, tr) =>
    let r := burstTransferFn bus n1 (serializeImg d.img)
    ((match r.1 with
      | .ok _ => .ok ()
      | .error e => .error e, d), tr ++ r.2)

/-- `UCTRONICSDisplay.Clear`: fill the framebuffer with opaque black and
then call `Show` — unlike the other drivers, this driver's `Clear` does
flush to hardware. -/
def uctronicsClear (bus : Bus) (n : Nat) (d : UCTRONICSState) :
    (Except Unit Unit × UCTRONICSState) × List I2CWrite :=
  uctronicsShow bus n { d with img := d.img.map fun _ => blackNRGBA }

/-- `UCTRONICSDisplay.DrawPixel`. -/
def uctronicsDrawPixel (d : UCTRONICSState) (x y : Int) (isOn : Bool) :
    (Except Unit Unit × UCTRONICSState) × List I2CWrite :=
  if x < 0 ∨ x ≥ (d.width : Int) ∨ y < 0 ∨ y ≥ (d.height : Int) then
    ((.ok (), d), [])
  else
    let c := if isOn then whiteNRGBA else blackNRGBA
    ((.ok (), { d with img := setNRGBA d.width d.height d.img x y c }), [])

/-! ## The monochrome SSD1306 driver (`ssd1306.go`) -/

/-- The driver state of `SSD1306Display`: geometry and the `image.Gray`
framebuffer stored row-major, one luma byte per pixel. -/
structure SSD1306State where
  width : Nat
  height : Nat
  img : List Nat
deriving DecidableEq, Repr

/-- `image.Gray.SetGray` on `(0,0)-(width,height)`: out-of-rectangle
writes are silent no-ops; the stored byte is `v % 256`. -/
def setGray (width height : Nat) (img : List Nat) (x y : Int) (v : Nat) : List Nat :=
  if 0 ≤ x ∧ x < (width : Int) ∧ 0 ≤ y ∧ y < (height : Int) then
    img.set (y.toNat * width + x.toNat) (v % 256)
  else img

/-- `SSD1306Display.Clear`: fill the buffer with gray 0; no device I/O
(the flush happens only in `Show` via `dev.Draw`). -/
def ssd1306Clear (d : SSD1306State) :
    (Except Unit Unit × SSD1306State) × List I2CWrite :=
  ((.ok (), { d with img := d.img.map fun _ => 0 }), [])

/-- `SSD1306Display.DrawPixel`: silently ignore out-of-bounds coordinates,
otherwise set the luma to 255 or 0. -/
def ssd1306DrawPixel (d : SSD1306State) (x y : Int) (isOn : Bool) :
    (Except Unit Unit × SSD1306State) × List I2CWrite :=
  if x < 0 ∨ x ≥ (d.width : Int) ∨ y < 0 ∨ y ≥ (d.height : Int) then
    ((.ok (), d), [])
  else
    let v := if isOn then 255 else 0
    ((.ok (), { d with img := setGray d.width d.height d.img x y v }), [])

/-! ## The in-memory test double (`mock.go`, `MockDisplay`) -/

/-- A recorded call of the test double (method name plus arguments). -/
inductive MockCall where
  | initCall
  | clear
  | drawPixel (x y : Int) (isOn : Bool)
  | showCall
  | closeCall
  | setBrightness (level : Nat)
deriving DecidableEq, Repr

/-- `MockDisplay`: 1-bit packed buffer, ordered call log, and the
fault-injection switch set by `SetError`. -/
structure MockDisplay where
  initialized : Bool
  width : Int
  height : Int
  buffer : List Nat
  calls : List MockCall
  shouldError : Bool
deriving DecidableEq, Repr

/-- `NewMockDisplay`: zeroed `width*height/8`-byte buffer, empty log. -/
def newMockDisplay (width height : Int) : MockDisplay :=
  ⟨false, width, height, List.replicate (width * height / 8).toNat 0, [], false⟩

/-- `MockDisplay.setPixel`: silent no-op when out of bounds or past the
buffer; otherwise set or clear one bit.  `b &^ mask` on a byte value is
`b &&& (255 ^^^ mask)`. -/
def mockSetPixel (m : MockDisplay) (x y : Int) (isOn : Bool) : List Nat :=
  if x < 0 ∨ x ≥ m.width ∨ y < 0 ∨ y ≥ m.height then m.buffer
  else
    let byteIdx := (x + (y / 8) * m.width).toNat
    let bitIdx := (y % 8).toNat
    if m.buffer.length ≤ byteIdx then m.buffer
    else
      let old := m.buffer.getD byteIdx 0
      let upd := if isOn then old ||| (1 <<< bitIdx)
                 else old &&& (255 ^^^ (1 <<< bitIdx))
      m.buffer.set byteIdx upd

/-- `MockDisplay.getPixel`. -/
def mockGetPixel (m : MockDisplay) (x y : Int) : Bool :=
  if x < 0 ∨ x ≥ m.width ∨ y < 0 ∨ y ≥ m.height then false
  else
    let byteIdx := (x + (y / 8) * m.width).toNat
    let bitIdx := (y % 8).toNat
    if m.buffer.length ≤ byteIdx then false
    else (m.buffer.getD byteIdx 0) &&& (1 <<< bitIdx) ≠ 0

/-- `MockDisplay.DrawPixel`: record the call, then fail if fault
injection is armed, else write the pixel. -/
def mockDrawPixel (m : MockDisplay) (x y : Int) (isOn : Bool) :
    Except Unit Unit × MockDisplay :=
  let m1 := { m with calls := m.calls ++ [.drawPixel x y isOn] }
  if m1.shouldError then (.error (), m1)
  else (.ok (), { m1 with buffer := mockSetPixel m1 x y isOn })

/-- `MockDisplay.Clear`: record the call, then fail if fault injection is
armed, else zero the buffer.  No hardware is involved. -/
def mockClear (m : MockDisplay) : Except Unit Unit × MockDisplay :=
  let m1 := { m with calls := m.calls ++ [.clear] }
  if m1.shouldError then (.error (), m1)
  else (.ok (), { m1 with buffer := m1.buffer.map fun _ => 0 })

/-! ## The rotation/refresh scheduler (`internal/rotation`, `Manager`)

The current `Manager` (the version with the `sync.Once` stop guard, the
state mutex and the metrics collaborator) is modelled as explicit state
passing.  The renderer collaborator is abstracted by its observable
surface: `pageCount` is the current `renderer.PageCount()`, `BuildPages`
replaces it by a value determined by the snapshot, and `RenderPage` is an
event plus an externally supplied result. -/

/-- Observable collaborator calls made by one scheduler operation. -/
inductive SchedEvent where
  | buildPages (ifaceCount : Int)
  | renderPage (idx : Int)
  | rotationMetric (idx : Int)
  | refreshMetric (success : Bool)
  | systemMetric
deriving DecidableEq, Repr

/-- Scheduler state: `Manager.currentPage` and `Manager.lastInterfaceCount`
(both Go `int`s) together with the renderer's current page count. -/
structure SchedState where
  currentPage : Int
  lastInterfaceCount : Int
  pageCount : Nat
deriving DecidableEq, Repr

/-- `NewManager` paired with a fresh `NewRenderer` (empty page list):
`currentPage: 0`, `lastInterfaceCount: -1` (forces a `BuildPages` on the
first refresh). -/
def newManager : SchedState := ⟨0, -1, 0⟩

/-- `Manager.rotatePage`: increment `currentPage`, reset to 0 when it
reaches `renderer.PageCount()`, and emit a rotation event to the optional
metrics collaborator.  No collector, renderer or display call is made. -/
def rotatePage (metricsEnabled : Bool) (s : SchedState) :
    SchedState × List SchedEvent :=
  let p0 := s.currentPage + 1
  let p := if p0 ≥ (s.pageCount : Int) then 0 else p0
  ({ s with currentPage := p },
    if metricsEnabled then [.rotationMetric p] else [])

/-- `Manager.refreshCurrentPage`.  `collectRes` is the outcome of
`collector.Collect()` abstracted to the snapshot's interface count;
`builtCount` gives the page count `renderer.BuildPages` would produce for
a snapshot; `renderRes` is the outcome of `renderer.RenderPage` at an
index.  Error payloads are propagated unchanged (the Go wrapping of the
message is abstracted away). -/
def refreshCurrentPage (metricsEnabled : Bool) (collectRes : Except Nat Int)
    (builtCount : Int → Nat) (renderRes : Int → Except Nat Unit)
    (s : SchedState) : Except Nat Unit × SchedState × List SchedEvent :=
  match collectRes with
  | .error e => (.error e, s, [])
  | .ok ifc =>
    let changed := ifc ≠ s.lastInterfaceCount
    let s1 := if changed then
        { s with lastInterfaceCount := ifc, pageCount := builtCount ifc }
      else s
    let ev1 : List SchedEvent := if changed then [.buildPages ifc] else []
    let s2 := if s1.currentPage ≥ (s1.pageCount : Int) then
        { s1 with currentPage := 0 }
      else s1
    let res := renderRes s2.currentPage
    let ev3 : List SchedEvent := if metricsEnabled then
        [.refreshMetric (match res with | .ok _ => true | .error _ => false),
          .systemMetric]
      else []
    (res, s2, ev1 ++ [.renderPage s2.currentPage] ++ ev3)

/-- `Manager.CurrentPage`. -/
def currentPageFn (s : SchedState) : Int := s.currentPage

/-- Iterated rotation ticks. -/
def rotateIter (metricsEnabled : Bool) (k : Nat) (s : SchedState) : SchedState :=
  match k with
  | 0 => s
  | k + 1 => rotateIter metricsEnabled k (rotatePage metricsEnabled s).1

/-! ### The stop handshake (`Manager.Stop`)

`Stop` is guarded by `stopOnce : sync.Once`; the guarded body closes
`stopChan`.  Closing an already-closed Go channel is a runtime panic, so
the close is modelled as a partial operation (`none` = panic).  The
subsequent bounded wait on `stoppedChan` (loop exit or the fixed 5-second
timeout) always returns and does not touch the state; real time is outside
the embedding, so the wait is abstracted into the operation's totality. -/

/-- One-shot stop state: whether `stopOnce` has fired and whether
`stopChan` has been closed. -/
structure StopState where
  stopDone : Bool
  stopChanClosed : Bool
deriving DecidableEq, Repr

/-- Fresh manager: `stopOnce` unfired, `stopChan` open. -/
def newStopState : StopState := ⟨false, false⟩

/-- `Manager.Stop`: run the close under the one-shot guard, then wait
(bounded) for the loop.  Returns the successor state and whether this call
actually sent the stop signal; `none` models the close-of-closed-channel
panic, which the guard makes unreachable. -/
def managerStop (s : StopState) : Option (StopState × Bool) :=
  if s.stopDone then some (s, false)
  else if s.stopChanClosed then none
  else some (⟨true, true⟩, true)

/-- Iterated `Stop` calls, counting how many sent the stop signal;
`none` if any call panicked. -/
def stopIter (k : Nat) (s : StopState) : Option (StopState × Nat) :=
  match k with
  | 0 => some (s, 0)
  | k + 1 =>
    match managerStop s with
    | none => none
    | some (s1, sig) =>
      match stopIter k s1 with
      | none => none
      | some (s2, c) => some (s2, (if sig then 1 else 0) + c)

/-! ## Evaluation lemmas on the failure-free bus -/

theorem setWindowFn_okBus (m : Nat) (d : ST7735State) (x0 y0 x1 y1 : Int) :
    setWindowFn okBus m d x0 y0 x1 y1 =
      (.ok (m + 5),
        [.cmd st7735CASET,
         .data [0x00, ((x0.emod 256).toNat + d.colOffset) % 256, 0x00,
           ((x1.emod 256).toNat + d.colOffset) % 256],
         .cmd st7735RASET,
         .data [0x00, ((y0.emod 256).toNat + d.rowOffset) % 256, 0x00,
           ((y1.emod 256).toNat + d.rowOffset) % 256],
         .cmd st7735RAMWR]) := by
  simp [setWindowFn, sendCmdData, sendCmd, sendData, okBus, txChunked, spiMaxTx]

theorem st7735Show_okBus (m : Nat) (d : ST7735State) :
    st7735Show okBus m d =
      ((.ok (), d),
        (setWindowFn okBus m d 0 0 ((d.width : Int) - 1) ((d.height : Int) - 1)).2 ++
          (chunkList spiMaxTx (serializeImg d.img)).map SpiWrite.data) := by
  rw [st7735Show, setWindowFn_okBus]
  simp only [sendData, txChunked_okBus spiMaxTx (by decide) (m + 5) (serializeImg d.img)]

theorem setAddressWindow_okBus (m : Nat) (x0 y0 x1 y1 : Nat) :
    setAddressWindow okBus m x0 y0 x1 y1 =
      (.ok (m + 4),
        [[uctronicsXCoordReg, (x0 + uctronicsXStart) % 256, (x1 + uctronicsXStart) % 256],
         [uctronicsYCoordReg, (y0 + uctronicsYStart) % 256, (y1 + uctronicsYStart) % 256],
         [uctronicsCharDataReg, 0x00, 0x00],
         [uctronicsSyncReg, 0x00, 0x01]]) := by
  simp [setAddressWindow, writeCommand, okBus]

theorem burstTransferFn_okBus (m : Nat) (data : List Nat) :
    burstTransferFn okBus m data =
      (.ok (m + (chunkList uctronicsBurstMaxLen data).length + 3),
        [uctronicsBurstWriteReg, 0x00, 0x01] ::
          (chunkList uctronicsBurstMaxLen data ++
            [[uctronicsBurstWriteReg, 0x00, 0x00], [uctronicsSyncReg, 0x00, 0x01]])) := by
  simp [burstTransferFn, writeCommand, okBus,
    txChunked_okBus uctronicsBurstMaxLen (by decide)]
  omega

theorem uctronicsShow_okBus (m : Nat) (u : UCTRONICSState) :
    uctronicsShow okBus m u =
      ((.ok (), u),
        (setAddressWindow okBus m 0 0 ((((u.width : Int) - 1).emod 256).toNat)
            ((((u.height : Int) - 1).emod 256).toNat)).2 ++
          [uctronicsBurstWriteReg, 0x00, 0x01] ::
            (chunkList uctronicsBurstMaxLen (serializeImg u.img) ++
              [[uctronicsBurstWriteReg, 0x00, 0x00], [uctronicsSyncReg, 0x00, 0x01]])) := by
  rw [uctronicsShow, setAddressWindow_okBus]
  simp only [burstTransferFn_okBus]

/-! ## Failure behaviour of `Show` -/

theorem st7735Show_state (bus : Bus) (n : Nat) (d : ST7735State) :
    (st7735Show bus n d).1.2 = d := by
  rw [st7735Show]
  rcases hw : setWindowFn bus n d 0 0 ((d.width : Int) - 1) ((d.height : Int) - 1)
    with ⟨res, tr⟩
  cases res <;> simp

theorem uctronicsShow_state (bus : Bus) (n : Nat) (u : UCTRONICSState) :
    (uctronicsShow bus n u).1.2 = u := by
  rw [uctronicsShow]
  rcases hw : setAddressWindow bus n 0 0 ((((u.width : Int) - 1).emod 256).toNat)
      ((((u.height : Int) - 1).emod 256).toNat) with ⟨res, tr⟩
  cases res <;> simp

theorem st7735Show_trace (bus : Bus) (n : Nat) (d : ST7735State) :
    ∃ k, k ≤ (chunkList spiMaxTx (serializeImg d.img)).length ∧
      (st7735Show bus n d).2 =
        (setWindowFn bus n d 0 0 ((d.width : Int) - 1) ((d.height : Int) - 1)).2 ++
          ((chunkList spiMaxTx (serializeImg d.img)).take k).map SpiWrite.data ∧
      ((st7735Show bus n d).1.1 = .ok () →
        (st7735Show bus n d).2 =
          (setWindowFn bus n d 0 0 ((d.width : Int) - 1) ((d.height : Int) - 1)).2 ++
            (chunkList spiMaxTx (serializeImg d.img)).map SpiWrite.data) := by
  rw [st7735Show]
  rcases hw : setWindowFn bus n d 0 0 ((d.width : Int) - 1) ((d.height : Int) - 1)
    with ⟨res, tr⟩
  cases res with
  | error e => exact ⟨0, by simp, by simp, by simp⟩
  | ok n1 =>
      obtain ⟨k, hk, htr, hfull⟩ :=
        txChunked_trace_prefix spiMaxTx (by decide) bus n1 (serializeImg d.img)
      refine ⟨k, hk, ?_, ?_⟩
      · simp only [sendData]
        rw [htr]
      · intro hok
        simp only [sendData] at hok ⊢
        rcases hres : (txChunked spiMaxTx bus n1 (serializeImg d.img)).1 with _ | m
        · rw [hres] at hok
          simp at hok
        · rw [hfull m hres]

theorem burstTransfer_abort (bus : Bus) (n : Nat) (data : List Nat) :
    ∃ k, k ≤ (chunkList uctronicsBurstMaxLen data).length ∧
      ((burstTransferFn bus n data).2 = [] ∨
        ∃ tail, (burstTransferFn bus n data).2 =
            [uctronicsBurstWriteReg, 0x00, 0x01] ::
              ((chunkList uctronicsBurstMaxLen data).take k ++ tail) ∧
          (tail = [] ∨ tail = [[uctronicsBurstWriteReg, 0x00, 0x00]] ∨
            tail = [[uctronicsBurstWriteReg, 0x00, 0x00],
              [uctronicsSyncReg, 0x00, 0x01]])) := by
  simp only [burstTransferFn, writeCommand]
  by_cases hb : bus n
  · exact ⟨0, by simp, by simp [hb]⟩
  · obtain ⟨k, hk, htr, hfull⟩ :=
      txChunked_trace_prefix uctronicsBurstMaxLen (by decide) bus (n + 1) data
    rcases hres : (txChunked uctronicsBurstMaxLen bus (n + 1) data).1 with _ | n2
    · refine ⟨k, hk, Or.inr ⟨[], ?_, Or.inl rfl⟩⟩
      simp [hb, hres, htr]
    · have h2 := hfull n2 hres
      have hreclen : (chunkList uctronicsBurstMaxLen data).take
          (chunkList uctronicsBurstMaxLen data).length =
          chunkList uctronicsBurstMaxLen data := List.take_length _
      by_cases hb3 : bus n2
      · refine ⟨(chunkList uctronicsBurstMaxLen data).length, le_refl _,
          Or.inr ⟨[], ?_, Or.inl rfl⟩⟩
        simp [hb, hres, hb3, h2, hreclen]
      · by_cases hb4 : bus (n2 + 1)
        · refine ⟨(chunkList uctronicsBurstMaxLen data).length, le_refl _,
            Or.inr ⟨[[uctronicsBurstWriteReg, 0x00, 0x00]], ?_, Or.inr (Or.inl rfl)⟩⟩
          simp [hb, hres, hb3, hb4, h2, hreclen]
        · refine ⟨(chunkList uctronicsBurstMaxLen data).length, le_refl _,
            Or.inr ⟨[[uctronicsBurstWriteReg, 0x00, 0x00], [uctronicsSyncReg, 0x00, 0x01]],
              ?_, Or.inr (Or.inr rfl)⟩⟩
          simp [hb, hres, hb3, hb4, h2, hreclen]

/-! ## Scheduler helper lemmas -/

theorem rotatePage_step (me : Bool) (s : SchedState)
    (h0 : 0 ≤ s.currentPage) (h1 : s.currentPage < (s.pageCount : Int)) :
    (rotatePage me s).1 =
      ⟨(s.currentPage + 1) % (s.pageCount : Int), s.lastInterfaceCount, s.pageCount⟩ := by
  unfold rotatePage
  by_cases hge : s.currentPage + 1 ≥ (s.pageCount : Int)
  · have heq : s.currentPage + 1 = (s.pageCount : Int) := by omega
    simp [hge, heq, Int.emod_self]
  · simp only [hge, if_false]
    rw [Int.emod_eq_of_lt (by omega) (by omega)]

theorem rotateIter_state (me : Bool) (k : Nat) : ∀ s : SchedState,
    0 ≤ s.currentPage → s.currentPage < (s.pageCount : Int) →
    rotateIter me k s =
      ⟨(s.currentPage + k) % (s.pageCount : Int), s.lastInterfaceCount, s.pageCount⟩ := by
  induction k with
  | zero =>
      intro s h0 h1
      show s = _
      rw [Nat.cast_zero, Int.add_zero, Int.emod_eq_of_lt h0 h1]
  | succ k ih =>
      intro s h0 h1
      have hNpos : 0 < (s.pageCount : Int) := by omega
      show rotateIter me k (rotatePage me s).1 = _
      rw [rotatePage_step me s h0 h1]
      rw [ih _ (Int.emod_nonneg _ (by omega)) (Int.emod_lt_of_pos _ hNpos)]
      congr 1
      rw [Int.emod_add_emod]
      congr 1
      push_cast
      ring

theorem stopIter_done (k : Nat) :
    stopIter k ⟨true, true⟩ = some (⟨true, true⟩, 0) := by
  induction k with
  | zero => rfl
  | succ k ih => simp [stopIter, managerStop, ih]

/-- The scheduler's page-index invariant: the index is never negative, it
is below the page count whenever the page count is positive, and it is 0
when there are no pages. -/
def schedInv (s : SchedState) : Prop :=
  0 ≤ s.currentPage ∧
    (0 < s.pageCount → s.currentPage < (s.pageCount : Int)) ∧
    (s.pageCount = 0 → s.currentPage = 0)

/-! ## Claim theorems -/

/-- **C1** (code-bug evaluation): the claim says every driver's `Clear`
emits no bus write.  The ST7735 driver, the SSD1306 driver and the test
double indeed emit nothing on `Clear`, but `UCTRONICSDisplay.Clear` ends
in `return d.Show()`: on a 1×1 bridged display with a healthy bus a single
`Clear` call emits eight I2C transactions (four window commands, burst
enable, one payload chunk, burst disable, sync) — contradicting both the
claim and the changelog entry that flicker was eliminated by not flushing
on `Clear`. -/
theorem uctronics_clear_flushes :
    (st7735Clear ⟨1, 1, 1, 1, 0, 0, [whiteNRGBA]⟩).2 = [] ∧
    (ssd1306Clear ⟨1, 1, [255]⟩).2 = [] ∧
    (mockClear (newMockDisplay 8 8)).1 = .ok () ∧
    (uctronicsClear okBus 0 ⟨1, 1, [whiteNRGBA]⟩).2 =
      [[0x2A, 0x00, 0x00], [0x2B, 24, 24], [0x2C, 0x00, 0x00], [0x03, 0x00, 0x01],
       [0x01, 0x00, 0x01], [0x00, 0x00], [0x01, 0x00, 0x00], [0x03, 0x00, 0x01]] := by
  refine ⟨rfl, rfl, rfl, ?_⟩
  simp [uctronicsClear, uctronicsShow, setAddressWindow, writeCommand, burstTransferFn,
    serializeImg, txChunked, okBus, blackNRGBA, nrgbaToRGB565, uctronicsXCoordReg,
    uctronicsYCoordReg, uctronicsCharDataReg, uctronicsSyncReg, uctronicsBurstWriteReg,
    uctronicsXStart, uctronicsYStart, uctronicsBurstMaxLen]
  decide

/-- **C3**: a bus write failure during `Show` aborts the transfer — the
emitted payload chunks are always a prefix of the frame's chunk
decomposition, and anything after an aborted burst payload is at most the
fixed burst-control commands, never payload — the driver state including
the framebuffer is bit-for-bit intact, and an immediately retried `Show`
on a healthy bus serializes and transmits the same frame in full. -/
theorem show_failure_spec (bus : Bus) (n : Nat) (d : ST7735State) (u : UCTRONICSState) :
    (st7735Show bus n d).1.2 = d ∧
    (uctronicsShow bus n u).1.2 = u ∧
    (∃ k, k ≤ (chunkList spiMaxTx (serializeImg d.img)).length ∧
      (st7735Show bus n d).2 =
        (setWindowFn bus n d 0 0 ((d.width : Int) - 1) ((d.height : Int) - 1)).2 ++
          ((chunkList spiMaxTx (serializeImg d.img)).take k).map SpiWrite.data ∧
      ((st7735Show bus n d).1.1 = .ok () →
        (st7735Show bus n d).2 =
          (setWindowFn bus n d 0 0 ((d.width : Int) - 1) ((d.height : Int) - 1)).2 ++
            (chunkList spiMaxTx (serializeImg d.img)).map SpiWrite.data)) ∧
    (∃ k, k ≤ (chunkList uctronicsBurstMaxLen (serializeImg u.img)).length ∧
      ((burstTransferFn bus n (serializeImg u.img)).2 = [] ∨
        ∃ tail, (burstTransferFn bus n (serializeImg u.img)).2 =
            [uctronicsBurstWriteReg, 0x00, 0x01] ::
              ((chunkList uctronicsBurstMaxLen (serializeImg u.img)).take k ++ tail) ∧
          (tail = [] ∨ tail = [[uctronicsBurstWriteReg, 0x00, 0x00]] ∨
            tail = [[uctronicsBurstWriteReg, 0x00, 0x00],
              [uctronicsSyncReg, 0x00, 0x01]]))) ∧
    (∀ m, st7735Show okBus m ((st7735Show bus n d).1.2) =
      ((.ok (), d),
        (setWindowFn okBus m d 0 0 ((d.width : Int) - 1) ((d.height : Int) - 1)).2 ++
          (chunkList spiMaxTx (serializeImg d.img)).map SpiWrite.data)) ∧
    (∀ m, uctronicsShow okBus m ((uctronicsShow bus n u).1.2) =
      ((.ok (), u),
        (setAddressWindow okBus m 0 0 ((((u.width : Int) - 1).emod 256).toNat)
            ((((u.height : Int) - 1).emod 256).toNat)).2 ++
          [uctronicsBurstWriteReg, 0x00, 0x01] ::
            (chunkList uctronicsBurstMaxLen (serializeImg u.img) ++
              [[uctronicsBurstWriteReg, 0x00, 0x00], [uctronicsSyncReg, 0x00, 0x01]]))) := by
  refine ⟨st7735Show_state bus n d, uctronicsShow_state bus n u,
    st7735Show_trace bus n d, burstTransfer_abort bus n (serializeImg u.img), ?_, ?_⟩
  · intro m
    rw [st7735Show_state bus n d, st7735Show_okBus]
  · intro m
    rw [uctronicsShow_state bus n u, uctronicsShow_okBus]

/-- Witness for `show_failure_spec` on a bus whose seventh transaction
fails (mid-payload for the 1×1 ST7735 frame) and concrete 1×1 states. -/
theorem show_failure_spec_witness :
    (st7735Show (fun i => decide (i = 6)) 0 ⟨1, 1, 1, 1, 0, 0, [whiteNRGBA]⟩).1.2 =
        ⟨1, 1, 1, 1, 0, 0, [whiteNRGBA]⟩ ∧
    (uctronicsShow (fun i => decide (i = 6)) 0 ⟨1, 1, [whiteNRGBA]⟩).1.2 =
        ⟨1, 1, [whiteNRGBA]⟩ ∧
    (∃ k, k ≤ (chunkList spiMaxTx (serializeImg [whiteNRGBA])).length ∧
      (st7735Show (fun i => decide (i = 6)) 0 ⟨1, 1, 1, 1, 0, 0, [whiteNRGBA]⟩).2 =
        (setWindowFn (fun i => decide (i = 6)) 0 ⟨1, 1, 1, 1, 0, 0, [whiteNRGBA]⟩ 0 0
            (((1 : Nat) : Int) - 1) (((1 : Nat) : Int) - 1)).2 ++
          ((chunkList spiMaxTx (serializeImg [whiteNRGBA])).take k).map SpiWrite.data ∧
      ((st7735Show (fun i => decide (i = 6)) 0 ⟨1, 1, 1, 1, 0, 0, [whiteNRGBA]⟩).1.1 =
          .ok () →
        (st7735Show (fun i => decide (i = 6)) 0 ⟨1, 1, 1, 1, 0, 0, [whiteNRGBA]⟩).2 =
          (setWindowFn (fun i => decide (i = 6)) 0 ⟨1, 1, 1, 1, 0, 0, [whiteNRGBA]⟩ 0 0
              (((1 : Nat) : Int) - 1) (((1 : Nat) : Int) - 1)).2 ++
            (chunkList spiMaxTx (serializeImg [whiteNRGBA])).map SpiWrite.data)) ∧
    (∃ k, k ≤ (chunkList uctronicsBurstMaxLen (serializeImg [whiteNRGBA])).length ∧
      ((burstTransferFn (fun i => decide (i = 6)) 0 (serializeImg [whiteNRGBA])).2 = [] ∨
        ∃ tail, (burstTransferFn (fun i => decide (i = 6)) 0
              (serializeImg [whiteNRGBA])).2 =
            [uctronicsBurstWriteReg, 0x00, 0x01] ::
              ((chunkList uctronicsBurstMaxLen (serializeImg [whiteNRGBA])).take k ++
                tail) ∧
          (tail = [] ∨ tail = [[uctronicsBurstWriteReg, 0x00, 0x00]] ∨
            tail = [[uctronicsBurstWriteReg, 0x00, 0x00],
              [uctronicsSyncReg, 0x00, 0x01]]))) ∧
    (∀ m, st7735Show okBus m
        ((st7735Show (fun i => decide (i = 6)) 0 ⟨1, 1, 1, 1, 0, 0, [whiteNRGBA]⟩).1.2) =
      ((.ok (), ⟨1, 1, 1, 1, 0, 0, [whiteNRGBA]⟩),
        (setWindowFn okBus m ⟨1, 1, 1, 1, 0, 0, [whiteNRGBA]⟩ 0 0
            (((1 : Nat) : Int) - 1) (((1 : Nat) : Int) - 1)).2 ++
          (chunkList spiMaxTx (serializeImg [whiteNRGBA])).map SpiWrite.data)) ∧
    (∀ m, uctronicsShow okBus m
        ((uctronicsShow (fun i => decide (i = 6)) 0 ⟨1, 1, [whiteNRGBA]⟩).1.2) =
      ((.ok (), ⟨1, 1, [whiteNRGBA]⟩),
        (setAddressWindow okBus m 0 0 (((((1 : Nat) : Int) - 1).emod 256).toNat)
            (((((1 : Nat) : Int) - 1).emod 256).toNat)).2 ++
          [uctronicsBurstWriteReg, 0x00, 0x01] ::
            (chunkList uctronicsBurstMaxLen (serializeImg [whiteNRGBA]) ++
              [[uctronicsBurstWriteReg, 0x00, 0x00], [uctronicsSyncReg, 0x00, 0x01]]))) :=
  show_failure_spec (fun i => decide (i = 6)) 0 ⟨1, 1, 1, 1, 0, 0, [whiteNRGBA]⟩
    ⟨1, 1, [whiteNRGBA]⟩

/-- **C4**: for the 160×80 panel variant the rotation parameters are a
fixed lookup: every rotation 0–3 yields a MADCTL byte with the MV
(row/column exchange) bit set, and the `(colOffset, rowOffset)` pair is
`(1, 26)` for rotations 0 and 2 and `(26, 1)` for rotations 1 and 3. -/
theorem rotation_params_160x80_spec :
    ∀ r : Int, 0 ≤ r → r ≤ 3 →
      (st7735RotationParams 160 80 r).1 &&& madctlMV = madctlMV ∧
      (st7735RotationParams 160 80 r).2 =
        (if r = 0 ∨ r = 2 then (1, 26) else (26, 1)) := by
  intro r h0 h3
  interval_cases r <;> exact ⟨by decide, by decide⟩

/-- Witness for `rotation_params_160x80_spec` at rotation 1. -/
theorem rotation_params_160x80_witness :
    (st7735RotationParams 160 80 1).1 &&& madctlMV = madctlMV ∧
    (st7735RotationParams 160 80 1).2 =
      (if (1 : Int) = 0 ∨ (1 : Int) = 2 then (1, 26) else (26, 1)) :=
  rotation_params_160x80_spec 1 (by decide) (by decide)

/-- **C6** counterexample: the claim promises that out-of-bounds
`DrawPixel` "returns success — never an error" for the test double as
well, but when the double's fault injection (`SetError`) is armed, an
out-of-bounds `DrawPixel` returns the injected error. -/
theorem mock_oob_drawpixel_error :
    (mockDrawPixel { newMockDisplay 8 8 with shouldError := true } (-1) 0 true).1 =
      .error () := rfl

/-- **C6** (amended): out-of-bounds `DrawPixel` never panics and never
alters the framebuffer; the three hardware drivers always return success
and leave the state and bus untouched; the test double also leaves its
buffer untouched and returns success exactly when fault injection is not
armed (an armed `SetError` fails every call, irrespective of
coordinates). -/
theorem draw_pixel_oob_spec :
    (∀ (d : ST7735State) (x y : Int) (isOn : Bool),
      x < 0 ∨ x ≥ (d.width : Int) ∨ y < 0 ∨ y ≥ (d.height : Int) →
      st7735DrawPixel d x y isOn = ((.ok (), d), [])) ∧
    (∀ (d : UCTRONICSState) (x y : Int) (isOn : Bool),
      x < 0 ∨ x ≥ (d.width : Int) ∨ y < 0 ∨ y ≥ (d.height : Int) →
      uctronicsDrawPixel d x y isOn = ((.ok (), d), [])) ∧
    (∀ (d : SSD1306State) (x y : Int) (isOn : Bool),
      x < 0 ∨ x ≥ (d.width : Int) ∨ y < 0 ∨ y ≥ (d.height : Int) →
      ssd1306DrawPixel d x y isOn = ((.ok (), d), [])) ∧
    (∀ (m : MockDisplay) (x y : Int) (isOn : Bool),
      x < 0 ∨ x ≥ m.width ∨ y < 0 ∨ y ≥ m.height →
      (mockDrawPixel m x y isOn).2.buffer = m.buffer ∧
      (m.shouldError = false → (mockDrawPixel m x y isOn).1 = .ok ()) ∧
      (m.shouldError = true → (mockDrawPixel m x y isOn).1 = .error ())) := by
  refine ⟨?_, ?_, ?_, ?_⟩
  · intro d x y isOn hoob
    rw [st7735DrawPixel, if_pos hoob]
  · intro d x y isOn hoob
    rw [uctronicsDrawPixel, if_pos hoob]
  · intro d x y isOn hoob
    rw [ssd1306DrawPixel, if_pos hoob]
  · intro m x y isOn hoob
    unfold mockDrawPixel
    by_cases he : m.shouldError
    · simp [he, mockSetPixel]
    · simp [he, mockSetPixel, if_pos hoob]

/-- Witness for `draw_pixel_oob_spec` on a 1×1 ST7735 at `(-1, 0)`. -/
theorem draw_pixel_oob_witness :
    st7735DrawPixel ⟨1, 1, 1, 1, 0, 0, [blackNRGBA]⟩ (-1) 0 true =
      ((.ok (), ⟨1, 1, 1, 1, 0, 0, [blackNRGBA]⟩), []) :=
  draw_pixel_oob_spec.1 ⟨1, 1, 1, 1, 0, 0, [blackNRGBA]⟩ (-1) 0 true
    (Or.inl (by decide))

/-- **C7**: a rotation tick advances the current page index by exactly one
modulo the page count, makes no render or page-rebuild call (it emits at
most the rotation metric event), and firing it `N` times returns
`CurrentPage()` to its starting value for any page count `N > 0` and any
starting index in `[0, N)`. -/
theorem rotation_tick_spec (me : Bool) (s : SchedState) (N : Nat)
    (hN : s.pageCount = N) (hpos : 0 < N)
    (h0 : 0 ≤ s.currentPage) (h1 : s.currentPage < (N : Int)) :
    (rotatePage me s).1.currentPage = (s.currentPage + 1) % (N : Int) ∧
    (∀ e ∈ (rotatePage me s).2, (∀ i, e ≠ .renderPage i) ∧ (∀ i, e ≠ .buildPages i)) ∧
    currentPageFn (rotateIter me N s) = currentPageFn s := by
  subst hN
  refine ⟨?_, ?_, ?_⟩
  · rw [rotatePage_step me s h0 h1]
  · intro e he
    unfold rotatePage at he
    rcases hme : me with _ | _
    · rw [hme] at he; simp at he
    · rw [hme] at he
      simp only [if_true, List.mem_singleton] at he
      subst he
      exact ⟨fun i => by simp, fun i => by simp⟩
  · rw [rotateIter_state me s.pageCount s h0 h1]
    show (s.currentPage + (s.pageCount : Int)) % (s.pageCount : Int) = s.currentPage
    have h : s.currentPage + (s.pageCount : Int) =
        s.currentPage + (s.pageCount : Int) * 1 := by ring
    rw [h, Int.add_mul_emod_self_left, Int.emod_eq_of_lt h0 h1]

/-- Witness for `rotation_tick_spec` with 3 pages starting at index 1. -/
theorem rotation_tick_witness :
    (rotatePage true ⟨1, -1, 3⟩).1.currentPage = ((1 : Int) + 1) % ((3 : Nat) : Int) ∧
    (∀ e ∈ (rotatePage true ⟨1, -1, 3⟩).2,
      (∀ i, e ≠ .renderPage i) ∧ (∀ i, e ≠ .buildPages i)) ∧
    currentPageFn (rotateIter true 3 ⟨1, -1, 3⟩) = currentPageFn ⟨1, -1, 3⟩ :=
  rotation_tick_spec true ⟨1, -1, 3⟩ 3 rfl (by decide) (by decide) (by decide)

/-- **C8**: `Stop` is idempotent through the one-shot guard — from a fresh
manager, any number `k` of `Stop` calls returns (the model is total; the
bounded 5-second wait is abstracted into totality), never hits the
close-of-closed-channel panic, and sends the stop signal exactly
`min k 1` times, i.e. at most once in total. -/
theorem stop_idempotent_spec (k : Nat) :
    stopIter k newStopState =
      some (if k = 0 then newStopState else ⟨true, true⟩, min k 1) := by
  cases k with
  | zero => rfl
  | succ k =>
      simp only [stopIter, managerStop, newStopState]
      simp [stopIter_done k]

/-- **C9**: a refresh tick first runs `Collect`; a collection failure is
returned as-is with the state untouched and no collaborator call at all;
on success the page list is rebuilt exactly when the snapshot's interface
count differs from the last recorded one, the index is reset to 0 exactly
when it is not below the (possibly rebuilt) page count, exactly one
`RenderPage` call is made, and its result is the tick's result. -/
theorem refresh_tick_spec (me : Bool) (builtCount : Int → Nat)
    (renderRes : Int → Except Nat Unit) (s : SchedState) :
    (∀ e, refreshCurrentPage me (.error e) builtCount renderRes s = (.error e, s, [])) ∧
    (∀ ifc : Int,
      (SchedEvent.buildPages ifc ∈
          (refreshCurrentPage me (.ok ifc) builtCount renderRes s).2.2 ↔
        ifc ≠ s.lastInterfaceCount) ∧
      ((refreshCurrentPage me (.ok ifc) builtCount renderRes s).2.1.pageCount =
        if ifc ≠ s.lastInterfaceCount then builtCount ifc else s.pageCount) ∧
      ((refreshCurrentPage me (.ok ifc) builtCount renderRes s).2.1.currentPage =
        if s.currentPage ≥
            ((if ifc ≠ s.lastInterfaceCount then builtCount ifc else s.pageCount : Nat) :
              Int)
          then 0 else s.currentPage) ∧
      (((refreshCurrentPage me (.ok ifc) builtCount renderRes s).2.2.filter
          fun e => match e with | .renderPage _ => true | _ => false) =
        [.renderPage
          (refreshCurrentPage me (.ok ifc) builtCount renderRes s).2.1.currentPage]) ∧
      ((refreshCurrentPage me (.ok ifc) builtCount renderRes s).1 =
        renderRes
          (refreshCurrentPage me (.ok ifc) builtCount renderRes s).2.1.currentPage)) := by
  refine ⟨fun e => rfl, fun ifc => ?_⟩
  unfold refreshCurrentPage
  by_cases hch : ifc = s.lastInterfaceCount
  · simp only [hch, ne_eq, not_true_eq_false, if_false, ite_false]
    by_cases hcl : s.currentPage ≥ (s.pageCount : Int)
    · cases me <;> simp [hcl, List.filter_append, List.filter]
    · cases me <;> simp [hcl, List.filter_append, List.filter]
  · simp only [hch, ne_eq, not_false_eq_true, if_true, ite_true]
    by_cases hcl : s.currentPage ≥ ((builtCount ifc : Nat) : Int)
    · cases me <;> simp [hcl, List.filter_append, List.filter]
    · cases me <;> simp [hcl, List.filter_append, List.filter]

/-- **C10**: the page-index invariant — index non-negative, below the page
count when pages exist, and 0 when there are none — holds of a fresh
manager and is preserved by every rotation tick and every refresh tick
(including failed ones); hence `CurrentPage()` never returns a negative
index. -/
theorem scheduler_index_invariant (me : Bool) (builtCount : Int → Nat)
    (renderRes : Int → Except Nat Unit) (collectRes : Except Nat Int)
    (s : SchedState) (hs : schedInv s) :
    schedInv newManager ∧
    schedInv (rotatePage me s).1 ∧
    schedInv (refreshCurrentPage me collectRes builtCount renderRes s).2.1 ∧
    0 ≤ currentPageFn s := by
  obtain ⟨h0, h1, h2⟩ := hs
  refine ⟨⟨by decide, fun h => by simp [newManager] at h, fun _ => by decide⟩, ?_, ?_, h0⟩
  · unfold rotatePage schedInv
    by_cases hge : s.currentPage + 1 ≥ (s.pageCount : Int) <;>
      simp [hge] <;> omega
  · unfold refreshCurrentPage schedInv
    cases collectRes with
    | error e => exact ⟨h0, h1, h2⟩
    | ok ifc =>
      by_cases hch : ifc = s.lastInterfaceCount
      · by_cases hcl : s.currentPage ≥ (s.pageCount : Int) <;>
          simp [hch, hcl] <;> omega
      · by_cases hcl : s.currentPage ≥ ((builtCount ifc : Nat) : Int) <;>
          simp [hch, hcl] <;> omega

/-- Witness for `scheduler_index_invariant` at a concrete state with 3
pages and index 2. -/
theorem scheduler_index_invariant_witness :
    schedInv newManager ∧
    schedInv (rotatePage true ⟨2, -1, 3⟩).1 ∧
    schedInv (refreshCurrentPage true (.ok 5) (fun _ => 2) (fun _ => .ok ())
      ⟨2, -1, 3⟩).2.1 ∧
    0 ≤ currentPageFn ⟨2, -1, 3⟩ :=
  scheduler_index_invariant true (fun _ => 2) (fun _ => .ok ()) (.ok 5) ⟨2, -1, 3⟩
    ⟨by decide, fun _ => by decide, fun h => by simp at h⟩

end I2CDisplay
